import Mathlib

/-!
Verification of the go-exiftool protocol driver (barasher/go-exiftool).

The development shallowly embeds the current driver variant
(`src/unnamed/part_002`, the stay-open exiftool wrapper) together with the
value helpers of `src/filemetadata.go`:

* the frame splitter `splitReadyToken` and a driver `scanFrames` modelling how
  `bufio.Scanner` repeatedly applies a split function to a fully buffered
  stream;
* the mutation-response interpreter `handleWriteMetadataResponse`;
* the batch drivers `ExtractMetadata` and `WriteMetadata`, with the operating
  system (stat), the JSON decoder and the subprocess byte stream given as
  explicit parameters/state;
* `Close`, with pipe-close and wait outcomes given as an explicit environment.

Bytes are modelled as `List Char`; Go `nil` errors are `Option`/`Except`
values; a Go panic is an `Except.error` of `GoPanic`.
-/

namespace GoExiftool

/-- The ready sentinel emitted by exiftool after each response
(`readyToken`, defined as `[]byte("\x7bready\x7d\n")` in the repository). -/
def readyToken : List Char := "\x7bready\x7d\n".data

/-- `readyTokenLen = len(readyToken)`. -/
def readyTokenLen : Nat := readyToken.length

/-- Result of one `bufio.SplitFunc` call: bytes to advance, the token produced
(`none` models a `nil` token, i.e. "request more data"), and the error
(`none` models a `nil` error). -/
structure SplitResult where
  advance : Nat
  token : Option (List Char)
  err : Option String
deriving DecidableEq, Repr

/-- `bytes.Index(data, pat)`: index of the first occurrence of `pat` inside
`data` (`none` for Go's `-1`). -/
def bytesIndex : (data pat : List Char) → Option Nat
  | [], pat => if pat.isPrefixOf [] then some 0 else none
  | c :: rest, pat =>
    if pat.isPrefixOf (c :: rest) then some 0
    else (bytesIndex rest pat).map (· + 1)

/-- `splitReadyToken(data, atEOF)` from `src/unnamed/part_002`:
find the ready sentinel; if absent, error out at EOF on a non-empty
remainder, otherwise request more data; if present, emit the bytes before it
and consume through its end. -/
def splitReadyToken (data : List Char) (atEOF : Bool) : SplitResult :=
  match bytesIndex data readyToken with
  | none =>
    if atEOF && !data.isEmpty then
      { advance := 0, token := some data, err := some "no final token found" }
    else
      { advance := 0, token := none, err := none }
  | some idx =>
    { advance := idx + readyTokenLen, token := some (data.take idx), err := none }

/-- Drives `bufio.Scanner` over a fully available input: repeatedly apply the
split function; on an error stop with it (the accompanying token is
discarded, as the scanner does), on a `nil` token stop cleanly, otherwise
record the frame and continue on the remaining bytes.  The fuel bounds the
number of `Scan` calls. -/
def scanFrames : Nat → List Char → List (List Char) × Option String
  | 0, _ => ([], some "out of fuel")
  | fuel + 1, data =>
    let r := splitReadyToken data true
    match r.err with
    | some e => ([], some e)
    | none =>
      match r.token with
      | none => ([], none)
      | some tok =>
        let rest := scanFrames fuel (data.drop r.advance)
        (tok :: rest.1, rest.2)

theorem bytesIndex_sound {data pat : List Char} {idx : Nat}
    (h : bytesIndex data pat = some idx) : pat <+: data.drop idx := by
  induction data generalizing idx with
  | nil =>
    simp only [bytesIndex] at h
    split at h
    · rename_i hp
      cases h
      exact List.isPrefixOf_iff_prefix.mp hp
    · cases h
  | cons c rest ih =>
    simp only [bytesIndex] at h
    split at h
    · rename_i hp
      cases h
      exact List.isPrefixOf_iff_prefix.mp hp
    · rcases Option.map_eq_some'.mp h with ⟨j, hj, hidx⟩
      subst hidx
      simpa [List.drop_succ_cons] using ih hj

theorem readyToken_length : readyToken.length = 8 := by decide

/-- If the scanner loop finishes with a `nil` error on a non-empty input, the
input ends with the ready sentinel. -/
theorem scanFrames_clean :
    ∀ (fuel : Nat) (data : List Char), data.length < fuel → data ≠ [] →
      (scanFrames fuel data).2 = none → readyToken <:+ data := by
  intro fuel
  induction fuel with
  | zero => intro data h; omega
  | succ n ih =>
    intro data hlen hne hclean
    cases hidx : bytesIndex data readyToken with
    | none =>
      have : (scanFrames (n + 1) data).2 = some "no final token found" := by
        simp [scanFrames, splitReadyToken, hidx, hne]
      rw [hclean] at this
      cases this
    | some idx =>
      have hpre : readyToken <+: data.drop idx := bytesIndex_sound hidx
      have hidxle : idx + readyTokenLen ≤ data.length := by
        by_contra hgt
        push_neg at hgt
        have hlendrop : (data.drop idx).length = data.length - idx :=
          List.length_drop idx data
        have : readyToken.length ≤ data.length - idx := by
          simpa [hlendrop] using hpre.length_le
        have : readyTokenLen ≤ data.length - idx := this
        have h8 : readyTokenLen = 8 := readyToken_length
        omega
      have hclean2 :
          (scanFrames n (data.drop (idx + readyTokenLen))).2 = none := by
        have : (scanFrames (n + 1) data).2 =
            (scanFrames n (data.drop (idx + readyTokenLen))).2 := by
          simp [scanFrames, splitReadyToken, hidx]
        rw [this] at hclean
        exact hclean
      by_cases hr : data.drop (idx + readyTokenLen) = []
      · have hdroplen : (data.drop idx).length = readyTokenLen := by
          have h1 : (data.drop idx).length = data.length - idx :=
            List.length_drop idx data
          have h2 : data.length ≤ idx + readyTokenLen := by
            have := List.drop_eq_nil_iff.mp hr
            omega
          have h3 : readyTokenLen ≤ data.length - idx := by omega
          omega
        have heq : readyToken = data.drop idx :=
          hpre.eq_of_length (by simpa [readyTokenLen] using hdroplen.symm)
        rw [heq]
        exact List.drop_suffix idx data
      · have hlt : (data.drop (idx + readyTokenLen)).length < n := by
          have h1 : (data.drop (idx + readyTokenLen)).length =
              data.length - (idx + readyTokenLen) :=
            List.length_drop _ data
          have h8 : readyTokenLen = 8 := readyToken_length
          omega
        have hsuf : readyToken <:+ data.drop (idx + readyTokenLen) :=
          ih (data.drop (idx + readyTokenLen)) hlt hr hclean2
        exact hsuf.trans (List.drop_suffix _ data)

/-- C1: splitting `"a" + SENTINEL + "b" + SENTINEL` yields exactly the frames
`"a"` then `"b"` with no error; and every input that still has bytes after the
last sentinel occurrence (so the input does not end with the sentinel)
makes the splitter report an error at end of stream instead of yielding the
trailing bytes as an ordinary frame. -/
theorem splitReadyToken_c1 :
    scanFrames 32 "a\x7bready\x7d\nb\x7bready\x7d\n".data =
      (["a".data, "b".data], none)
    ∧ ∀ u v : List Char, ¬ readyToken <:+ (u ++ readyToken ++ v) →
        ∃ e, (scanFrames ((u ++ readyToken ++ v).length + 1)
          (u ++ readyToken ++ v)).2 = some e := by
  constructor
  · rfl
  · intro u v hns
    cases he : (scanFrames ((u ++ readyToken ++ v).length + 1)
        (u ++ readyToken ++ v)).2 with
    | none =>
      have hne : u ++ readyToken ++ v ≠ [] := by
        intro h
        rcases List.append_eq_nil.mp h with ⟨h1, -⟩
        rcases List.append_eq_nil.mp h1 with ⟨-, h2⟩
        have : readyToken.length = 8 := readyToken_length
        rw [h2] at this
        simp at this
      exact absurd (scanFrames_clean _ _ (by omega) hne he) hns
    | some e => exact ⟨e, rfl⟩

theorem splitReadyToken_c1_witness :
    ∃ e, (scanFrames (("a".data ++ readyToken ++ "b".data).length + 1)
      ("a".data ++ readyToken ++ "b".data)).2 = some e :=
  splitReadyToken_c1.2 "a".data "b".data (by decide)

/-- C2: on empty input at end-of-stream the splitter returns advance `0`, a
`nil` token and a `nil` error (clean termination), and on a buffer that is
exactly the ready sentinel it produces a single empty frame consuming the
whole sentinel (shown both for the raw split function and for the scanner
loop). -/
theorem splitReadyToken_c2 :
    splitReadyToken [] true = { advance := 0, token := none, err := none }
    ∧ splitReadyToken readyToken true =
        { advance := readyTokenLen, token := some [], err := none }
    ∧ scanFrames (readyToken.length + 1) readyToken = ([[]], none) := by
  refine ⟨rfl, by decide, by decide⟩

/-! ## Mutation-response interpreter -/

/-- Modelled from the spec: the fixed success sentinel string recognised at
the end of a successful mutation response (`writeMetadataSuccessToken`, whose
defining file is not part of the sources at hand; only its uses are). -/
def writeMetadataSuccessToken : String := "1 image files updated"

/-- Go's `unicode.IsSpace`: the White_Space code points. -/
def goIsSpace (c : Char) : Bool :=
  (0x09 ≤ c.val && c.val ≤ 0x0d) || c.val == 0x20 || c.val == 0x85 ||
  c.val == 0xa0 || c.val == 0x1680 || (0x2000 ≤ c.val && c.val ≤ 0x200a) ||
  c.val == 0x2028 || c.val == 0x2029 || c.val == 0x202f ||
  c.val == 0x205f || c.val == 0x3000

/-- Go's `strings.TrimSpace`: drop leading and trailing white space. -/
def goTrimSpace (s : String) : String :=
  ⟨((s.data.dropWhile goIsSpace).reverse.dropWhile goIsSpace).reverse⟩

/-- `handleWriteMetadataResponse` from `src/unnamed/part_002`: success
(`nil` error, modelled as `none`) iff the response has the success sentinel as
a suffix; otherwise `errors.New(strings.TrimSpace(resp))`. -/
def handleWriteMetadataResponse (resp : String) : Option String :=
  if writeMetadataSuccessToken.data <:+ resp.data then none
  else some (goTrimSpace resp)

/-- C3: the interpreter succeeds exactly on responses ending with the success
sentinel (so a sentinel occurrence that is not terminal — e.g. only
mid-string, followed by other text — is classified as failure), and every
failure carries the whitespace-trimmed response text as its message. -/
theorem handleWriteMetadataResponse_c3 (resp : String) :
    (handleWriteMetadataResponse resp = none ↔
      writeMetadataSuccessToken.data <:+ resp.data)
    ∧ (¬ writeMetadataSuccessToken.data <:+ resp.data →
        handleWriteMetadataResponse resp = some (goTrimSpace resp)) := by
  unfold handleWriteMetadataResponse
  constructor
  · split <;> simp_all
  · intro h
    simp [h]

theorem handleWriteMetadataResponse_c3_witness :
    handleWriteMetadataResponse "prefix text 1 image files updated" = none
    ∧ handleWriteMetadataResponse " 1 image files updated suffix " =
        some (goTrimSpace " 1 image files updated suffix ") :=
  ⟨(handleWriteMetadataResponse_c3 "prefix text 1 image files updated").1.mpr
      (by decide),
    (handleWriteMetadataResponse_c3 " 1 image files updated suffix ").2
      (by decide)⟩

/-! ## Data model for the batch drivers -/

/-- A dynamically typed Go value (`interface` value) as produced by
`json.Unmarshal`: `null`, a string, an array, or any other leaf value
(number, boolean, …) carried together with its Go string rendering —
abstracting `strconv` formatting, which lives outside the driver. -/
inductive GoValue where
  | null : GoValue
  | str : String → GoValue
  | prim : String → GoValue
  | arr : List GoValue → GoValue

mutual

/-- `toString` from `src/filemetadata.go`: a string is itself, a leaf number
keeps its formatting, and other values go through `fmt.Sprintf` (a `nil`
value prints as `<nil>`, a slice as its bracketed space-separated elements). -/
def toString : GoValue → String
  | .null => "<nil>"
  | .str s => s
  | .prim r => r
  | .arr es => "[" ++ String.intercalate " " (toStringList es) ++ "]"

/-- `toString` mapped over a slice of values. -/
def toStringList : List GoValue → List String
  | [] => []
  | v :: vs => toString v :: toStringList vs

end

/-- The classified errors the drivers can record in an item's `Err` slot. -/
inductive GoErr where
  | errNotExist
  | errNotFile
  | errBufferTooSmall
  | errKeyNotFound
  | statFail (msg : String)
  | readFail (msg : String)
  | readEOF
  | unmarshalFail (raw : String) (msg : String)
  | writeResponseFail (trimmed : String)
deriving DecidableEq

/-- `FileMetadata` from `src/filemetadata.go`; the field map is modelled as an
association list and the `nil`-able `Err` as an `Option`. -/
structure FileMetadata where
  File : String
  Fields : List (String × GoValue)
  Err : Option GoErr

/-- `FileMetadata.GetStrings`: the field value as one string per element of a
slice value, or as a single rendered string otherwise. -/
def FileMetadata.GetStrings (fm : FileMetadata) (k : String) :
    Except GoErr (List String) :=
  match fm.Fields.lookup k with
  | none => .error .errKeyNotFound
  | some (.arr is) => .ok (toStringList is)
  | some v => .ok [toString v]

/-- Outcome of one `Scan()` call on the merged-output scanner: a complete
frame, clean end of stream, the `bufio.ErrTooLong` condition, or another
read error. -/
inductive ScanItem where
  | frame (content : String)
  | eof
  | tooLong
  | fail (msg : String)
deriving DecidableEq

/-- The session state a driver mutates: the lines written so far to the
subprocess's stdin and the pending outcomes of future `Scan()` calls. -/
structure SessionState where
  written : List String
  pending : List ScanItem
deriving DecidableEq

/-- One `fmt.Fprintln(e.stdin, line)`. -/
def writeLn (st : SessionState) (line : String) : SessionState :=
  { st with written := st.written ++ [line] }

/-- One `Scan()` call: consume the next pending outcome (end of stream once
exhausted). -/
def scanNext (st : SessionState) : ScanItem × SessionState :=
  match st.pending with
  | [] => (.eof, st)
  | s :: rest => (s, { st with pending := rest })

/-- Outcome of `os.Stat` on a path: a regular file or directory, absence, or
another failure. -/
inductive StatResult where
  | ok (isDir : Bool)
  | notExist
  | fail (msg : String)
deriving DecidableEq

/-- A Go runtime panic (abstracted to the one the driver can hit). -/
inductive GoPanic where
  | indexOutOfRange (idx len : Nat)
deriving DecidableEq

/-- `extractArgs`. -/
def extractArgs : List String := ["-j"]

/-- `executeArg`. -/
def executeArg : String := "-execute"

/-! ## Extract driver -/

/-- How one `ExtractMetadata` iteration handles the scan outcome
(`src/unnamed/part_002`): `ErrTooLong` → `ErrBufferTooSmall`, another scan
error or a closed stream → read errors; a frame is decoded as a JSON array
of objects whose first element `m[0]` is taken without an emptiness check,
hence the possible index panic. -/
def extractRespond
    (unmarshal : String → Except String (List (List (String × GoValue))))
    (f : String) :
    ScanItem → SessionState → Except GoPanic (SessionState × FileMetadata)
  | .tooLong, st2 =>
    .ok (st2, { File := f, Fields := [], Err := some .errBufferTooSmall })
  | .fail m, st2 =>
    .ok (st2, { File := f, Fields := [], Err := some (.readFail m) })
  | .eof, st2 =>
    .ok (st2, { File := f, Fields := [], Err := some .readEOF })
  | .frame c, st2 =>
    match unmarshal c with
    | .error m =>
      .ok (st2, { File := f, Fields := [], Err := some (.unmarshalFail c m) })
    | .ok [] => .error (.indexOutOfRange 0 0)
    | .ok (m0 :: _) => .ok (st2, { File := f, Fields := m0, Err := none })

/-- One iteration of the `ExtractMetadata` loop (`src/unnamed/part_002`):
pre-flight stat (absence → `ErrNotExist`, directory → `ErrNotFile`, other
failure propagated, all without protocol interaction), then write the
extract flag, the path and the execute marker, scan the next outcome and
interpret it via `extractRespond`. -/
def extractOne (stat : String → StatResult)
    (unmarshal : String → Except String (List (List (String × GoValue))))
    (st : SessionState) (f : String) :
    Except GoPanic (SessionState × FileMetadata) :=
  match stat f with
  | .notExist => .ok (st, { File := f, Fields := [], Err := some .errNotExist })
  | .fail m => .ok (st, { File := f, Fields := [], Err := some (.statFail m) })
  | .ok true => .ok (st, { File := f, Fields := [], Err := some .errNotFile })
  | .ok false =>
    let st1 := writeLn (writeLn (extractArgs.foldl writeLn st) f) executeArg
    extractRespond unmarshal f (scanNext st1).1 (scanNext st1).2

/-- `ExtractMetadata`: one outcome per input path, processed in order; a
panic aborts the whole call. -/
def ExtractMetadata (stat : String → StatResult)
    (unmarshal : String → Except String (List (List (String × GoValue))))
    (st : SessionState) :
    List String → Except GoPanic (SessionState × List FileMetadata)
  | [] => .ok (st, [])
  | f :: rest =>
    match extractOne stat unmarshal st f with
    | .error p => .error p
    | .ok (st2, fm) =>
      match ExtractMetadata stat unmarshal st2 rest with
      | .error p => .error p
      | .ok (st3, fms) => .ok (st3, fm :: fms)

/-! ## Mutate driver -/

/-- `Exiftool`'s write-relevant configuration flags. -/
structure ExifConfig where
  backupOriginal : Bool
  clearFieldsBeforeWriting : Bool
deriving DecidableEq

/-- One iteration of the field loop of `WriteMetadata`: a `nil` value emits
the bare deletion directive `-k=`; any other value goes through `GetStrings`
(a failure there records the error and moves to the next field) and emits one
assignment directive `-k=s` per returned string. -/
def writeOneField (st : SessionState) (fm : FileMetadata)
    (curErr : Option GoErr) (k : String) (v : GoValue) :
    SessionState × Option GoErr :=
  match v with
  | .null => (writeLn st ("-" ++ k ++ "="), curErr)
  | _ =>
    match fm.GetStrings k with
    | .error e => (st, some e)
    | .ok strTab =>
      (strTab.foldl (fun s str => writeLn s ("-" ++ k ++ "=" ++ str)) st,
        curErr)

/-- The whole field loop, threading the session state and the last recorded
field error. -/
def writeFields (fm : FileMetadata) :
    List (String × GoValue) → SessionState → Option GoErr →
      SessionState × Option GoErr
  | [], st, e => (st, e)
  | (k, v) :: rest, st, e =>
    let p := writeOneField st fm e k v
    writeFields fm rest p.1 p.2

/-- The command lines of one `WriteMetadata` item: the optional
`-overwrite_original` and `-All=` directives, the field directives, then the
path and the execute marker. -/
def writeItemCmds (cfg : ExifConfig) (md : FileMetadata) (st : SessionState) :
    SessionState × Option GoErr :=
  let st1 := if cfg.backupOriginal then st else writeLn st "-overwrite_original"
  let st2 := if cfg.clearFieldsBeforeWriting then writeLn st1 "-All=" else st1
  let p := writeFields md md.Fields st2 none
  (writeLn (writeLn p.1 md.File) executeArg, p.2)

/-- How one `WriteMetadata` iteration handles the scan outcome:
`ErrTooLong` → `ErrBufferTooSmall`, other scan problems → read errors, and
otherwise the response interpreter decides success (keeping any field-loop
error) or failure (wrapped as a write error). -/
def writeRespond (md : FileMetadata) (fieldErr : Option GoErr) :
    ScanItem → SessionState → SessionState × FileMetadata
  | .tooLong, st2 => (st2, { md with Err := some .errBufferTooSmall })
  | .fail m, st2 => (st2, { md with Err := some (.readFail m) })
  | .eof, st2 => (st2, { md with Err := some .readEOF })
  | .frame c, st2 =>
    match handleWriteMetadataResponse c with
    | some e => (st2, { md with Err := some (.writeResponseFail e) })
    | none => (st2, { md with Err := fieldErr })

/-- One iteration of the `WriteMetadata` loop (`src/unnamed/part_002`): the
item's `Err` is first reset to `nil`; pre-flight stat (no directory check
here), the command lines, then the next scan outcome interpreted via
`writeRespond`. -/
def writeOne (cfg : ExifConfig) (stat : String → StatResult)
    (st : SessionState) (md : FileMetadata) : SessionState × FileMetadata :=
  match stat md.File with
  | .notExist => (st, { md with Err := some .errNotExist })
  | .fail m => (st, { md with Err := some (.statFail m) })
  | .ok _ =>
    let p := writeItemCmds cfg md st
    writeRespond md p.2 (scanNext p.1).1 (scanNext p.1).2

/-- `WriteMetadata`: updates every item in order. -/
def WriteMetadata (cfg : ExifConfig) (stat : String → StatResult)
    (st : SessionState) :
    List FileMetadata → SessionState × List FileMetadata
  | [] => (st, [])
  | md :: rest =>
    let p := writeOne cfg stat st md
    let q := WriteMetadata cfg stat p.1 rest
    (q.1, p.2 :: q.2)

/-! ## Close -/

/-- Outcome of waiting for the subprocess, raced against the timeout. -/
inductive WaitOutcome where
  | finished (err : Option String)
  | timedOut
deriving DecidableEq

/-- The failure possibilities `Close` interacts with: a failing
`Fprintln` while sending the shutdown commands, the two pipe closes, and the
bounded wait. -/
structure CloseEnv where
  writeErr : Option String
  outCloseErr : Option String
  inCloseErr : Option String
  wait : WaitOutcome
deriving DecidableEq

/-- One entry of the `errs` slice `Close` accumulates. -/
inductive CloseErr where
  | outClose (m : String)
  | inClose (m : String)
  | waitFail (m : String)
  | waitTimeout
deriving DecidableEq

/-- The value `Close` returns: the error of a failing shutdown write
(returned immediately), or the accumulated `errs` (a `nil` error iff the
list is empty). -/
inductive CloseResult where
  | writeFailed (m : String)
  | done (errs : List CloseErr)
deriving DecidableEq

/-- `Close` from `src/unnamed/part_002`, also reporting whether each pipe
close was attempted: send the shutdown commands (returning at once on a write
error), then close the merged-output pipe, close stdin, and wait with a
timeout, appending every error encountered. -/
def closeSession (env : CloseEnv) : CloseResult × Bool × Bool :=
  match env.writeErr with
  | some m => (.writeFailed m, false, false)
  | none =>
    let errs :=
      (match env.outCloseErr with
        | some m => [CloseErr.outClose m]
        | none => [])
      ++ (match env.inCloseErr with
        | some m => [CloseErr.inClose m]
        | none => [])
      ++ (match env.wait with
        | .finished (some m) => [CloseErr.waitFail m]
        | .finished none => []
        | .timedOut => [CloseErr.waitTimeout])
    (.done errs, true, true)

/-! ## Helper lemmas for the drivers -/

theorem extractRespond_File
    {unm : String → Except String (List (List (String × GoValue)))}
    {f : String} {item : ScanItem} {st1 : SessionState} {st2 : SessionState}
    {fm : FileMetadata}
    (h : extractRespond unm f item st1 = .ok (st2, fm)) : fm.File = f := by
  cases item with
  | frame c =>
    simp only [extractRespond] at h
    cases hu : unm c with
    | error m =>
      simp only [hu, Except.ok.injEq, Prod.mk.injEq] at h
      rw [← h.2]
    | ok ms =>
      cases ms with
      | nil => simp [hu] at h
      | cons m0 tl =>
        simp only [hu, Except.ok.injEq, Prod.mk.injEq] at h
        rw [← h.2]
  | tooLong =>
    simp only [extractRespond, Except.ok.injEq, Prod.mk.injEq] at h
    rw [← h.2]
  | fail m =>
    simp only [extractRespond, Except.ok.injEq, Prod.mk.injEq] at h
    rw [← h.2]
  | eof =>
    simp only [extractRespond, Except.ok.injEq, Prod.mk.injEq] at h
    rw [← h.2]

theorem extractOne_File {stat : String → StatResult}
    {unm : String → Except String (List (List (String × GoValue)))}
    {st : SessionState} {f : String} {st2 : SessionState} {fm : FileMetadata}
    (h : extractOne stat unm st f = .ok (st2, fm)) : fm.File = f := by
  unfold extractOne at h
  cases hs : stat f with
  | ok d =>
    cases d with
    | true =>
      simp only [hs, Except.ok.injEq, Prod.mk.injEq] at h
      rw [← h.2]
    | false =>
      simp only [hs] at h
      exact extractRespond_File h
  | notExist =>
    simp only [hs, Except.ok.injEq, Prod.mk.injEq] at h
    rw [← h.2]
  | fail m =>
    simp only [hs, Except.ok.injEq, Prod.mk.injEq] at h
    rw [← h.2]

theorem writeRespond_File {md : FileMetadata} {fieldErr : Option GoErr}
    {item : ScanItem} {st1 : SessionState} :
    ((writeRespond md fieldErr item st1).2).File = md.File := by
  cases item with
  | frame c =>
    simp only [writeRespond]
    cases handleWriteMetadataResponse c <;> rfl
  | tooLong => rfl
  | fail m => rfl
  | eof => rfl

theorem writeOne_File {cfg : ExifConfig} {stat : String → StatResult}
    {st : SessionState} {md : FileMetadata} :
    ((writeOne cfg stat st md).2).File = md.File := by
  unfold writeOne
  cases stat md.File with
  | ok d => exact writeRespond_File
  | notExist => rfl
  | fail m => rfl

/-- C4: each driver yields exactly one outcome per input item, the i-th
outcome's `File` path being the i-th input's path (stated as the outcome
list mapping to the input path list), for every stat oracle, decoder,
session state and batch — so a per-item error never prevents the remaining
items of the batch from being processed. -/
theorem batch_outcomes_c4 :
    (∀ (stat : String → StatResult)
      (unm : String → Except String (List (List (String × GoValue))))
      (st : SessionState) (files : List String)
      (st2 : SessionState) (fms : List FileMetadata),
      ExtractMetadata stat unm st files = .ok (st2, fms) →
      fms.map FileMetadata.File = files)
    ∧ (∀ (cfg : ExifConfig) (stat : String → StatResult)
      (st : SessionState) (mds : List FileMetadata),
      (WriteMetadata cfg stat st mds).2.map FileMetadata.File =
        mds.map FileMetadata.File) := by
  constructor
  · intro stat unm st files
    induction files generalizing st with
    | nil =>
      intro st2 fms h
      simp only [ExtractMetadata, Except.ok.injEq, Prod.mk.injEq] at h
      rw [← h.2]
      rfl
    | cons f rest ih =>
      intro st2 fms h
      rw [ExtractMetadata] at h
      cases h1 : extractOne stat unm st f with
      | error p => simp [h1] at h
      | ok q =>
        obtain ⟨stq, fmq⟩ := q
        simp only [h1] at h
        cases h2 : ExtractMetadata stat unm stq rest with
        | error p => simp [h2] at h
        | ok r =>
          obtain ⟨str', fmsr⟩ := r
          simp only [h2, Except.ok.injEq, Prod.mk.injEq] at h
          rw [← h.2, List.map_cons, extractOne_File h1, ih stq str' fmsr h2]
  · intro cfg stat st mds
    induction mds generalizing st with
    | nil => rfl
    | cons md rest ih =>
      simp only [WriteMetadata, List.map_cons, writeOne_File, ih]

theorem batch_outcomes_c4_witness :
    ([{ File := "x", Fields := [], Err := some .errNotExist },
      { File := "y", Fields := [], Err := some .errNotExist }] :
        List FileMetadata).map FileMetadata.File = ["x", "y"] :=
  batch_outcomes_c4.1 (fun _ => .notExist) (fun _ => .error "e")
    { written := [], pending := [] } ["x", "y"]
    { written := [], pending := [] } _ rfl

/-- C5: an item failing the pre-flight stat check leaves the session state
untouched (no command line written, no frame consumed) and gets, without any
protocol interaction, the classified outcome: `ErrNotExist` for an absent
path, `ErrNotFile` for a directory, and the propagated OS error otherwise. -/
theorem extract_preflight_c5 (stat : String → StatResult)
    (unm : String → Except String (List (List (String × GoValue))))
    (st : SessionState) (f : String) :
    (stat f = .notExist →
      extractOne stat unm st f =
        .ok (st, { File := f, Fields := [], Err := some .errNotExist }))
    ∧ (stat f = .ok true →
      extractOne stat unm st f =
        .ok (st, { File := f, Fields := [], Err := some .errNotFile }))
    ∧ (∀ m, stat f = .fail m →
      extractOne stat unm st f =
        .ok (st, { File := f, Fields := [], Err := some (.statFail m) })) := by
  refine ⟨fun h => ?_, fun h => ?_, fun m h => ?_⟩ <;>
    simp [extractOne, h]

theorem extract_preflight_c5_witness :
    extractOne (fun _ => .notExist) (fun _ => .error "e")
      { written := [], pending := [] } "a" =
      .ok ({ written := [], pending := [] },
        { File := "a", Fields := [], Err := some .errNotExist })
    ∧ extractOne (fun _ => .ok true) (fun _ => .error "e")
      { written := [], pending := [] } "d" =
      .ok ({ written := [], pending := [] },
        { File := "d", Fields := [], Err := some .errNotFile })
    ∧ extractOne (fun _ => .fail "boom") (fun _ => .error "e")
      { written := [], pending := [] } "f" =
      .ok ({ written := [], pending := [] },
        { File := "f", Fields := [], Err := some (.statFail "boom") }) :=
  ⟨(extract_preflight_c5 _ _ _ _).1 rfl,
    (extract_preflight_c5 _ _ _ _).2.1 rfl,
    (extract_preflight_c5 _ _ _ _).2.2 "boom" rfl⟩

theorem foldl_writeLn (pre : String) :
    ∀ (xs : List String) (st : SessionState),
      xs.foldl (fun s str => writeLn s (pre ++ str)) st =
        { st with written := st.written ++ xs.map (fun str => pre ++ str) } := by
  intro xs
  induction xs with
  | nil => intro st; simp
  | cons x tl ih =>
    intro st
    rw [List.foldl_cons, ih]
    obtain ⟨w, p⟩ := st
    simp [writeLn]

theorem toStringList_eq_map (vs : List GoValue) :
    toStringList vs = vs.map toString := by
  induction vs with
  | nil => rfl
  | cons v tl ih => simp [toStringList, ih]

/-- C6: inside `WriteMetadata`'s field loop, a field of the item's mapping
with a `nil` value emits exactly the single bare deletion directive `-k=`;
an array value of `n` elements emits exactly `n` assignment directives
`-k=value`, one per element in order; and any other non-`nil` value emits
exactly one assignment directive carrying its string representation — in
every case without touching the read side or the error slot. -/
theorem write_fields_c6 (st : SessionState) (fm : FileMetadata)
    (curErr : Option GoErr) (k : String) (v : GoValue)
    (hv : fm.Fields.lookup k = some v) :
    (v = .null →
      writeOneField st fm curErr k v =
        ({ st with written := st.written ++ ["-" ++ k ++ "="] }, curErr))
    ∧ (∀ es, v = .arr es →
      writeOneField st fm curErr k v =
        ({ st with written :=
            st.written ++ es.map (fun x => "-" ++ k ++ "=" ++ toString x) },
          curErr))
    ∧ (v ≠ .null → (∀ es, v ≠ .arr es) →
      writeOneField st fm curErr k v =
        ({ st with written := st.written ++ ["-" ++ k ++ "=" ++ toString v] },
          curErr)) := by
  refine ⟨fun h => ?_, fun es h => ?_, fun h1 h2 => ?_⟩
  · subst h
    rfl
  · subst h
    simp only [writeOneField, FileMetadata.GetStrings, hv]
    rw [foldl_writeLn ("-" ++ k ++ "="), toStringList_eq_map]
    simp [List.map_map, Function.comp]
  · cases v with
    | null => exact absurd rfl h1
    | arr es => exact absurd rfl (h2 es)
    | str s =>
      simp only [writeOneField, FileMetadata.GetStrings, hv]
      rw [show ∀ a : String, [a].foldl
          (fun s str => writeLn s ("-" ++ k ++ "=" ++ str)) st =
          writeLn st ("-" ++ k ++ "=" ++ a) from fun a => rfl]
      rfl
    | prim r =>
      simp only [writeOneField, FileMetadata.GetStrings, hv]
      rw [show ∀ a : String, [a].foldl
          (fun s str => writeLn s ("-" ++ k ++ "=" ++ str)) st =
          writeLn st ("-" ++ k ++ "=" ++ a) from fun a => rfl]
      rfl

theorem write_fields_c6_witness :
    writeOneField { written := [], pending := [] }
      { File := "f",
        Fields := [("D", .null), ("K", .arr [.str "a", .str "b"]),
          ("T", .str "t")],
        Err := none } none "D" .null =
      ({ written := ["-D="], pending := [] }, none)
    ∧ writeOneField { written := [], pending := [] }
      { File := "f",
        Fields := [("D", .null), ("K", .arr [.str "a", .str "b"]),
          ("T", .str "t")],
        Err := none } none "K" (.arr [.str "a", .str "b"]) =
      ({ written := ["-K=a", "-K=b"], pending := [] }, none)
    ∧ writeOneField { written := [], pending := [] }
      { File := "f",
        Fields := [("D", .null), ("K", .arr [.str "a", .str "b"]),
          ("T", .str "t")],
        Err := none } none "T" (.str "t") =
      ({ written := ["-T=t"], pending := [] }, none) :=
  ⟨(write_fields_c6 _ _ _ _ _ (by rfl)).1 rfl,
    (write_fields_c6 _ _ _ _ _ (by rfl)).2.1 [.str "a", .str "b"] rfl,
    (write_fields_c6 _ _ _ _ _ (by rfl)).2.2 (by simp) (by simp)⟩

/-! ## Pending-stream preservation of the write phase -/

theorem writeLn_pending (st : SessionState) (x : String) :
    (writeLn st x).pending = st.pending := rfl

theorem writeOneField_pending (st : SessionState) (fm : FileMetadata)
    (e : Option GoErr) (k : String) (v : GoValue) :
    (writeOneField st fm e k v).1.pending = st.pending := by
  cases v <;>
    simp only [writeOneField] <;>
    first
      | rfl
      | (cases fm.GetStrings k <;> simp [foldl_writeLn ("-" ++ k ++ "=")])

theorem writeFields_pending (fm : FileMetadata) :
    ∀ (fields : List (String × GoValue)) (st : SessionState)
      (e : Option GoErr),
      (writeFields fm fields st e).1.pending = st.pending := by
  intro fields
  induction fields with
  | nil => intro st e; rfl
  | cons kv tl ih =>
    intro st e
    obtain ⟨k, v⟩ := kv
    simp only [writeFields]
    rw [ih, writeOneField_pending]

theorem writeItemCmds_pending (cfg : ExifConfig) (md : FileMetadata)
    (st : SessionState) :
    (writeItemCmds cfg md st).1.pending = st.pending := by
  simp only [writeItemCmds, writeLn_pending, writeFields_pending]
  cases cfg.backupOriginal <;> cases cfg.clearFieldsBeforeWriting <;> rfl

/-- C7: when the next scan outcome is the `bufio.ErrTooLong` condition, both
drivers record the dedicated sentinel `ErrBufferTooSmall` in the item's
outcome slot (a constructor distinct from every other read error), rather
than a truncated frame or a generic error. -/
theorem buffer_too_small_c7 :
    (∀ (stat : String → StatResult)
      (unm : String → Except String (List (List (String × GoValue))))
      (w : List String) (ps : List ScanItem) (f : String),
      stat f = .ok false →
      extractOne stat unm { written := w, pending := .tooLong :: ps } f =
        .ok ({ written := w ++ ["-j", f, "-execute"], pending := ps },
          { File := f, Fields := [], Err := some .errBufferTooSmall }))
    ∧ (∀ (cfg : ExifConfig) (stat : String → StatResult)
      (st : SessionState) (md : FileMetadata) (ps : List ScanItem)
      (d : Bool), stat md.File = .ok d → st.pending = .tooLong :: ps →
      ∃ w, writeOne cfg stat st md =
        ({ written := w, pending := ps },
          { md with Err := some .errBufferTooSmall }))
    ∧ (∀ m, GoErr.errBufferTooSmall ≠ GoErr.readFail m)
    ∧ GoErr.errBufferTooSmall ≠ GoErr.readEOF := by
  refine ⟨fun stat unm w ps f h => ?_, fun cfg stat st md ps d h hp => ?_,
    fun m => by simp, by simp⟩
  · simp [extractOne, h, extractArgs, executeArg, writeLn, scanNext,
      extractRespond]
  · refine ⟨(writeItemCmds cfg md st).1.written, ?_⟩
    have hpend : (writeItemCmds cfg md st).1.pending = .tooLong :: ps := by
      rw [writeItemCmds_pending, hp]
    have hscan : scanNext (writeItemCmds cfg md st).1 =
        (.tooLong,
          { written := (writeItemCmds cfg md st).1.written, pending := ps }) := by
      simp [scanNext, hpend]
    simp [writeOne, h, hscan, writeRespond]

theorem buffer_too_small_c7_witness :
    extractOne (fun _ => .ok false) (fun _ => .error "e")
      { written := [], pending := [.tooLong] } "g" =
      .ok ({ written := ["-j", "g", "-execute"], pending := [] },
        { File := "g", Fields := [], Err := some .errBufferTooSmall })
    ∧ ∃ w, writeOne
      { backupOriginal := false, clearFieldsBeforeWriting := false }
      (fun _ => .ok false)
      { written := [], pending := [.tooLong] }
      { File := "g", Fields := [], Err := none } =
      ({ written := w, pending := [] },
        { File := "g", Fields := [], Err := some .errBufferTooSmall }) :=
  ⟨buffer_too_small_c7.1 (fun _ => .ok false) (fun _ => .error "e")
      [] [] "g" rfl,
    buffer_too_small_c7.2.1 _ (fun _ => .ok false) _
      { File := "g", Fields := [], Err := none } [] false rfl rfl⟩

/-- C8: provided the shutdown command lines could be written, `Close`
attempts both pipe closes unconditionally (even when the first close fails),
accumulates exactly the errors among output-pipe close, input-pipe close,
wait failure and wait timeout, and returns a `nil` error iff none of those
steps failed. -/
theorem close_c8 (env : CloseEnv) (hw : env.writeErr = none) :
    ∃ errs, closeSession env = (.done errs, true, true)
    ∧ (errs = [] ↔ env.outCloseErr = none ∧ env.inCloseErr = none ∧
        env.wait = .finished none)
    ∧ (∀ m, CloseErr.outClose m ∈ errs ↔ some m = env.outCloseErr)
    ∧ (∀ m, CloseErr.inClose m ∈ errs ↔ some m = env.inCloseErr)
    ∧ (∀ m, CloseErr.waitFail m ∈ errs ↔ .finished (some m) = env.wait)
    ∧ (CloseErr.waitTimeout ∈ errs ↔ env.wait = .timedOut) := by
  obtain ⟨we, oe, ie, wt⟩ := env
  cases hw
  rcases oe with _ | o <;> rcases ie with _ | i <;> rcases wt with (_ | wm) | _
  · exact ⟨[], rfl, by simp⟩
  · exact ⟨[CloseErr.waitFail wm], rfl, by simp⟩
  · exact ⟨[CloseErr.waitTimeout], rfl, by simp⟩
  · exact ⟨[CloseErr.inClose i], rfl, by simp⟩
  · exact ⟨[CloseErr.inClose i, CloseErr.waitFail wm], rfl, by simp⟩
  · exact ⟨[CloseErr.inClose i, CloseErr.waitTimeout], rfl, by simp⟩
  · exact ⟨[CloseErr.outClose o], rfl, by simp⟩
  · exact ⟨[CloseErr.outClose o, CloseErr.waitFail wm], rfl, by simp⟩
  · exact ⟨[CloseErr.outClose o, CloseErr.waitTimeout], rfl, by simp⟩
  · exact ⟨[CloseErr.outClose o, CloseErr.inClose i], rfl, by simp⟩
  · exact ⟨[CloseErr.outClose o, CloseErr.inClose i, CloseErr.waitFail wm],
      rfl, by simp⟩
  · exact ⟨[CloseErr.outClose o, CloseErr.inClose i, CloseErr.waitTimeout],
      rfl, by simp⟩

theorem close_c8_witness :
    ∃ errs,
      closeSession
        { writeErr := none, outCloseErr := some "o", inCloseErr := some "i",
          wait := .timedOut } = (.done errs, true, true)
      ∧ (errs = [] ↔ some "o" = none ∧ some "i" = none ∧
          WaitOutcome.timedOut = .finished none)
      ∧ (∀ m, CloseErr.outClose m ∈ errs ↔ some m = some "o")
      ∧ (∀ m, CloseErr.inClose m ∈ errs ↔ some m = some "i")
      ∧ (∀ m, CloseErr.waitFail m ∈ errs ↔
          WaitOutcome.finished (some m) = .timedOut)
      ∧ (CloseErr.waitTimeout ∈ errs ↔ WaitOutcome.timedOut = .timedOut) :=
  close_c8
    { writeErr := none, outCloseErr := some "o", inCloseErr := some "i",
      wait := .timedOut } rfl

theorem extractRespond_total
    {unm : String → Except String (List (List (String × GoValue)))}
    {f : String} (hne : ∀ c, unm c ≠ .ok []) (item : ScanItem)
    (st2 : SessionState) : ∃ r, extractRespond unm f item st2 = .ok r := by
  cases item with
  | frame c =>
    simp only [extractRespond]
    cases hu : unm c with
    | error m => exact ⟨_, rfl⟩
    | ok ms =>
      cases ms with
      | nil => exact absurd hu (hne c)
      | cons m0 tl => exact ⟨_, rfl⟩
  | tooLong => exact ⟨_, rfl⟩
  | eof => exact ⟨_, rfl⟩
  | fail m => exact ⟨_, rfl⟩

/-- C9: the extract driver indexes the first element of a successfully
decoded frame without an emptiness check: a frame decoding (as `"[]"` does)
to the empty array makes the whole call abort with an index-out-of-range
panic instead of recording an error in the item's outcome slot; and whenever
the decoder never returns an empty array, each item's processing returns
normally. -/
theorem extract_empty_array_panic_c9 :
    ExtractMetadata (fun _ => .ok false)
      (fun s => if s = "[]" then .ok [] else .error "invalid json")
      { written := [], pending := [.frame "[]"] } ["f.jpg"] =
      .error (.indexOutOfRange 0 0)
    ∧ ∀ (stat : String → StatResult)
      (unm : String → Except String (List (List (String × GoValue))))
      (st : SessionState) (f : String),
      (∀ c, unm c ≠ .ok []) →
      ∃ r, extractOne stat unm st f = .ok r := by
  constructor
  · rfl
  · intro stat unm st f hne
    unfold extractOne
    cases stat f with
    | notExist => exact ⟨_, rfl⟩
    | fail m => exact ⟨_, rfl⟩
    | ok d =>
      cases d with
      | true => exact ⟨_, rfl⟩
      | false => exact extractRespond_total hne _ _

theorem extract_empty_array_panic_c9_witness :
    ∃ r, extractOne (fun _ => .ok false) (fun _ => .error "e")
      { written := [], pending := [] } "g" = .ok r :=
  extract_empty_array_panic_c9.2 (fun _ => .ok false) (fun _ => .error "e")
    { written := [], pending := [] } "g" (fun c h => by cases h)

theorem writeOneField_err_reset (st : SessionState) (md : FileMetadata)
    (e : Option GoErr) (k : String) (v : GoValue) :
    writeOneField st { md with Err := none } e k v =
      writeOneField st md e k v := by
  cases v <;> rfl

theorem writeFields_err_reset (md : FileMetadata) :
    ∀ (fields : List (String × GoValue)) (st : SessionState)
      (e : Option GoErr),
      writeFields { md with Err := none } fields st e =
        writeFields md fields st e := by
  intro fields
  induction fields with
  | nil => intro st e; rfl
  | cons kv tl ih =>
    intro st e
    obtain ⟨k, v⟩ := kv
    simp only [writeFields, writeOneField_err_reset, ih]

theorem writeItemCmds_err_reset (cfg : ExifConfig) (md : FileMetadata)
    (st : SessionState) :
    writeItemCmds cfg { md with Err := none } st = writeItemCmds cfg md st := by
  simp only [writeItemCmds, writeFields_err_reset]

theorem writeRespond_err_reset (md : FileMetadata) (fe : Option GoErr)
    (item : ScanItem) (st2 : SessionState) :
    writeRespond { md with Err := none } fe item st2 =
      writeRespond md fe item st2 := by
  cases item with
  | frame c => simp only [writeRespond]
  | tooLong => rfl
  | fail m => rfl
  | eof => rfl

theorem writeOne_err_reset (cfg : ExifConfig) (stat : String → StatResult)
    (st : SessionState) (md : FileMetadata) :
    writeOne cfg stat st md = writeOne cfg stat st { md with Err := none } := by
  unfold writeOne
  dsimp only
  rw [writeItemCmds_err_reset, writeRespond_err_reset]

/-- C10: `WriteMetadata` resets each item's `Err` slot before any other
processing of that item, so the whole call's behaviour — states written,
frames consumed and every returned `Err` — is the same whatever stale
errors the caller left in the incoming items. -/
theorem write_err_reset_c10 (cfg : ExifConfig) (stat : String → StatResult)
    (st : SessionState) (mds : List FileMetadata) :
    WriteMetadata cfg stat st mds =
      WriteMetadata cfg stat st (mds.map fun md => { md with Err := none }) := by
  induction mds generalizing st with
  | nil => rfl
  | cons md rest ih =>
    simp only [List.map_cons, WriteMetadata, ← writeOne_err_reset, ih]

end GoExiftool
